import Mathlib

set_option autoImplicit false

/-!
Shallow embedding of the gameplay core of `src/main.js` (AR whack-a-mole).

Timestamps and coordinates are exact rationals (`ℚ`); the JS numbers in
play are small decimal literals and additions/multiplications of them, so
the rational model tracks the source exactly wherever the source is exact
and avoids floating-point noise otherwise.

Randomness: `Math.random()` returns a uniform deviate in `[0,1)`.  We model
the random source as a list of rational deviates carried in the state and
consumed from the head, one per `Math.random()` call, exactly at the call
sites the source has (`rand` in `scheduleNextPop`, and the slot pick in
`updateMole`).  The environment guarantee `0 ≤ u < 1` becomes a
well-formedness predicate on the list.

Out of scope (per the spec, treated as external collaborators): WebGL
rendering, mesh construction, the cosmetic scale/emissive tween inside
`whackMole` (it touches only `mole.scale` and a material), hit-test plane
detection, and the raycast geometry — a tap arrives here already resolved
to "the ray does / does not intersect the mole mesh" (a boolean), which is
exactly the information `onPointerDown` extracts from the raycaster.
-/

namespace WhackAMouse

/-- 3D vector with exact rational coordinates (models `THREE.Vector3`). -/
structure Vec3 where
  x : ℚ
  y : ℚ
  z : ℚ
deriving DecidableEq, Repr

instance : Add Vec3 := ⟨fun a b => ⟨a.x + b.x, a.y + b.y, a.z + b.z⟩⟩

def Vec3.zero : Vec3 := ⟨0, 0, 0⟩

instance : Inhabited Vec3 := ⟨Vec3.zero⟩

/-- Quaternion `(x, y, z, w)` (models `THREE.Quaternion`). -/
structure Quat where
  x : ℚ
  y : ℚ
  z : ℚ
  w : ℚ
deriving DecidableEq, Repr

def Quat.identity : Quat := ⟨0, 0, 0, 1⟩

/-- `THREE.Vector3.applyQuaternion` (three.js r160):
`t = 2 * cross(q.xyz, v)`, result `v + q.w * t + cross(q.xyz, t)`. -/
def applyQuaternion (q : Quat) (v : Vec3) : Vec3 :=
  let tx := 2 * (q.y * v.z - q.z * v.y)
  let ty := 2 * (q.z * v.x - q.x * v.z)
  let tz := 2 * (q.x * v.y - q.y * v.x)
  ⟨v.x + q.w * tx + (q.y * tz - q.z * ty),
   v.y + q.w * ty + (q.z * tx - q.x * tz),
   v.z + q.w * tz + (q.x * ty - q.y * tx)⟩

-- Constants from src/main.js lines 13-26.
def GRID : ℕ := 3
def SPACING : ℚ := 0.38
def POP_INTERVAL_MIN : ℚ := 700
def POP_INTERVAL_MAX : ℚ := 1400
def UP_DURATION : ℚ := 900

/-- `moleState` is literally the string `'up'` or `'down'` in the source. -/
inductive MoleState where
  | up
  | down
deriving DecidableEq, Repr

/-- The `kind` field of `mole.userData.anim`. -/
inductive AnimKind where
  | pop
  | hide
  | bonk
deriving DecidableEq, Repr

/-- `mole.userData.anim = { kind, t0, dur, from, to }` (`from` is a Lean
keyword, hence `fromY`/`toY`). -/
structure AnimRec where
  kind : AnimKind
  t0 : ℚ
  dur : ℚ
  fromY : ℚ
  toY : ℚ
deriving DecidableEq, Repr

/-- The mutable module-level game state of src/main.js, plus the mole
object fields the gameplay logic reads/writes (`visible`, `position`,
`quaternion`, `userData.anim`), plus the injected random stream. -/
structure GameState where
  placed : Bool
  paused : Bool
  holes : List Vec3
  gridPos : Vec3
  gridQuat : Quat
  moleVisible : Bool
  molePos : Vec3
  moleQuat : Quat
  moleAnim : Option AnimRec
  moleState : MoleState
  activeHoleIndex : ℤ
  nextPopAt : ℚ
  score : ℕ
  streak : ℕ
  upSince : ℚ
  rng : List ℚ
deriving DecidableEq, Repr

/-- `function easeOut(t){ return 1 - Math.pow(1 - t, 3); }` -/
def easeOut (t : ℚ) : ℚ := 1 - (1 - t) ^ 3

/-- `function rand(a,b){ return a + Math.random()*(b-a); }` with the
deviate `u` made explicit. -/
def rand (a b u : ℚ) : ℚ := a + u * (b - a)

/-- `scheduleNextPop(now)`: consumes one random deviate. -/
def scheduleNextPop (now : ℚ) (s : GameState) : GameState :=
  { s with nextPopAt := now + rand POP_INTERVAL_MIN POP_INTERVAL_MAX (s.rng.headD 0)
         , rng := s.rng.tail }

/-- `buildGrid()` as a pure function of the anchor pose: row-major
`hole.position.set((c*SPACING)-offset, 0, (r*SPACING)-offset)` with
`offset = (GRID-1)*SPACING*0.5`, then `applyQuaternion(gridRoot.quaternion)`
and `add(gridRoot.position)`. -/
def buildGrid (q : Quat) (p : Vec3) : List Vec3 :=
  let off : ℚ := ((GRID : ℚ) - 1) * SPACING * 0.5
  (List.range GRID).flatMap fun r =>
    (List.range GRID).map fun c =>
      applyQuaternion q ⟨(c : ℚ) * SPACING - off, 0, (r : ℚ) * SPACING - off⟩ + p

/-- The hole mesh the mole logic indexes: `holes[activeHoleIndex]`.
(In JS an out-of-range access would crash; `getD` with a default stands in
for that partiality, and the reachability invariant shows the index is in
range whenever it is read.) -/
def activeHole (s : GameState) : Vec3 :=
  s.holes.getD s.activeHoleIndex.toNat default

/-- The first block of `updateMole` (main.js 244-258): if the mole is down,
it is time, and holes exist, pop at a random hole.
`Math.floor(Math.random() * holes.length)` is `⌊u * length⌋` for the
deviate `u`. -/
def popMole (nowMs : ℚ) (s : GameState) : GameState :=
  let u := s.rng.headD 0
  let idx := (⌊u * (s.holes.length : ℚ)⌋).toNat
  let hole := s.holes.getD idx default
  let a : AnimRec := ⟨.pop, nowMs, 180, -0.02, 0.16⟩
  { s with rng := s.rng.tail
         , activeHoleIndex := (idx : ℤ)
         , molePos := ⟨hole.x, hole.y + a.fromY, hole.z⟩
         , moleQuat := s.gridQuat
         , moleVisible := true
         , moleAnim := some a
         , moleState := .up
         , upSince := nowMs }

/-- The second block of `updateMole` (main.js 261-277): advance the running
animation; on completion, a `pop` just clears the animation, while `hide`
and `bonk` also hide the mole, set it down, and schedule the next pop. -/
def stepAnim (nowMs : ℚ) (s : GameState) : GameState :=
  match s.moleAnim with
  | none => s
  | some a =>
    if s.moleVisible then
      let t := min 1 ((nowMs - a.t0) / a.dur)
      let y := a.fromY + (a.toY - a.fromY) * easeOut t
      let s1 := { s with molePos := ⟨s.molePos.x, (activeHole s).y + y, s.molePos.z⟩ }
      if 1 ≤ t then
        match a.kind with
        | .pop => { s1 with moleAnim := none }
        | .hide =>
          scheduleNextPop nowMs
            { s1 with moleVisible := false, moleAnim := none, moleState := .down }
        | .bonk =>
          scheduleNextPop nowMs
            { s1 with moleVisible := false, moleAnim := none, moleState := .down }
      else s1
    else s

/-- The third block of `updateMole` (main.js 280-287): auto-hide if not
whacked in time; strict comparison `nowMs - upSince > UP_DURATION`, guarded
by `!mole.userData.anim`.  Side effect: `streak = 0`. -/
def timeoutCheck (nowMs : ℚ) (s : GameState) : GameState :=
  if s.moleState = .up ∧ UP_DURATION < nowMs - s.upSince ∧ s.moleAnim = none then
    { s with moleAnim := some ⟨.hide, nowMs, 160, 0.16, -0.02⟩, streak := 0 }
  else s

/-- `updateMole(nowMs, dt)` (main.js 242-287): the three blocks run in
sequence on the evolving state; `dt` is unused in the source. -/
def updateMole (nowMs : ℚ) (s : GameState) : GameState :=
  timeoutCheck nowMs (stepAnim nowMs
    (if s.moleState = .down ∧ s.nextPopAt ≤ nowMs ∧ s.holes.length ≠ 0 then
      popMole nowMs s
    else s))

/-- `whackMole()` (main.js 289-318).  The scale/emissive tween is purely
cosmetic (touches only `mole.scale` and a material) and is out of scope;
the gameplay effects are the early-return guard, the `bonk` animation, and
the scoring. -/
def whackMole (now : ℚ) (s : GameState) : GameState :=
  if s.moleState = .up then
    { s with moleState := .down
           , moleAnim := some ⟨.bonk, now, 140, 0.16, -0.02⟩
           , score := s.score + 1
           , streak := s.streak + 1 }
  else s

/-- `onPointerDown` (main.js 145-174).  Before placement a tap commits the
grid at `pose` (the reticle pose, or the camera-forward fallback — which of
the two supplies `pose` is AR machinery out of scope) and schedules the
first pop.  After placement, the raycast outcome is `hitsMole`; the source
line is `if (hit && moleState === 'up') whackMole();`. -/
def onPointerDown (pose : Vec3 × Quat) (hitsMole : Bool) (now : ℚ)
    (s : GameState) : GameState :=
  if s.placed = false then
    scheduleNextPop now
      { s with gridPos := pose.1
             , gridQuat := pose.2
             , holes := buildGrid pose.2 pose.1
             , placed := true }
  else if hitsMole = true ∧ s.moleState = .up then
    whackMole now s
  else s

/-- The gameplay part of `onXRFrame` (main.js 110-121):
`if (!paused && placed) updateMole(time, dt)`. -/
def onXRFrame (time : ℚ) (s : GameState) : GameState :=
  if s.paused = false ∧ s.placed = true then updateMole time s else s

/-- The pause button handler (main.js 71): `paused = !paused`. -/
def togglePause (s : GameState) : GameState :=
  { s with paused := !s.paused }

/-- `resetGame()` (main.js 322-334).  Note what it does NOT touch:
`activeHoleIndex`, `nextPopAt`, `upSince`, the anchor pose, the rng. -/
def resetGame (s : GameState) : GameState :=
  { s with score := 0
         , streak := 0
         , placed := false
         , paused := false
         , moleVisible := false
         , moleAnim := none
         , moleState := .down
         , holes := [] }

/-- The `sessionstart` handler's gameplay effect (main.js 86):
`scheduleNextPop(performance.now())`. -/
def sessionStart (now : ℚ) (s : GameState) : GameState :=
  scheduleNextPop now s

/-- Initial module-level state (main.js 9-27, 64): `activeHoleIndex = -1`,
everything down/unplaced/unpaused, counters zero. -/
def initState (rng : List ℚ) : GameState :=
  { placed := false
  , paused := false
  , holes := []
  , gridPos := Vec3.zero
  , gridQuat := Quat.identity
  , moleVisible := false
  , molePos := Vec3.zero
  , moleQuat := Quat.identity
  , moleAnim := none
  , moleState := .down
  , activeHoleIndex := -1
  , nextPopAt := 0
  , score := 0
  , streak := 0
  , upSince := 0
  , rng := rng }

/-- Environment guarantee on the random stream: `Math.random() ∈ [0,1)`. -/
def WfRng (l : List ℚ) : Prop := ∀ u ∈ l, 0 ≤ u ∧ u < 1

instance (l : List ℚ) : Decidable (WfRng l) := by
  unfold WfRng; infer_instance

/-- Reachable game states: the initial module state (with a well-formed
random stream) closed under every entry point of the source that touches
the gameplay state. -/
inductive Reachable : GameState → Prop where
  | init (rng : List ℚ) (hw : WfRng rng) : Reachable (initState rng)
  | frame {s : GameState} (now : ℚ) : Reachable s → Reachable (onXRFrame now s)
  | tap {s : GameState} (pose : Vec3 × Quat) (b : Bool) (now : ℚ) :
      Reachable s → Reachable (onPointerDown pose b now s)
  | pauseBtn {s : GameState} : Reachable s → Reachable (togglePause s)
  | resetBtn {s : GameState} : Reachable s → Reachable (resetGame s)
  | session {s : GameState} (now : ℚ) : Reachable s → Reachable (sessionStart now s)

/-- The spec's four-state view of the target.  The abstraction map from the
source state: the source only stores `'up'`/`'down'` plus the running
animation record; the spec's `Rising` is `'up'` with a `pop` animation,
`Retreating` is `'up'` with a `hide` animation (miss path) or `'down'` with
a `bonk` animation (hit path), `Up` is `'up'` with no animation, and `Down`
is the rest. -/
inductive SpecState where
  | Down
  | Rising
  | Up
  | Retreating
deriving DecidableEq, Repr

def derivedState (s : GameState) : SpecState :=
  match s.moleState, s.moleAnim with
  | .up, none => .Up
  | .up, some a => if a.kind = .pop then .Rising else .Retreating
  | .down, some a => if a.kind = .bonk then .Retreating else .Down
  | .down, none => .Down

/-- Fold a sequence of frame timestamps through `updateMole`. -/
def advances (ts : List ℚ) (s : GameState) : GameState :=
  ts.foldl (fun s t => updateMole t s) s

/-- State invariant maintained by every reachable state.  It records the
consequences of how the source manipulates the mole: the random stream
stays well-formed; and while the mole is `'up'` the grid has been placed,
`activeHoleIndex` is a valid index, a running `pop` animation is the one
`updateMole` created (so its target height is `0.16`), and an idle visible
mole rests exactly at its hole's `y + 0.16`. -/
def Inv (s : GameState) : Prop :=
  WfRng s.rng ∧
  (s.moleState = .up →
    s.placed = true ∧
    0 ≤ s.activeHoleIndex ∧ s.activeHoleIndex < (s.holes.length : ℤ) ∧
    (∀ a, s.moleAnim = some a → a.kind = .pop → a.toY = 0.16) ∧
    (s.moleVisible = true → s.moleAnim = none →
      s.molePos.y = (activeHole s).y + 0.16))

/-! ### A concrete run

One fully evaluated trace, used as reachable witness material: place the
grid at the identity pose at `t = 0` with an all-zeros random stream, pop
at `t = 700`, finish rising by `t = 900`, and from there branch into the
hit path (whack at `901`) and the miss path (timeout at `1602`). -/

def idPose : Vec3 × Quat := (Vec3.zero, Quat.identity)

def rng0 : List ℚ := [0, 0, 0, 0, 0]

def holes9 : List Vec3 :=
  [⟨-0.38, 0, -0.38⟩, ⟨0, 0, -0.38⟩, ⟨0.38, 0, -0.38⟩,
   ⟨-0.38, 0, 0⟩, ⟨0, 0, 0⟩, ⟨0.38, 0, 0⟩,
   ⟨-0.38, 0, 0.38⟩, ⟨0, 0, 0.38⟩, ⟨0.38, 0, 0.38⟩]

def exPlaced : GameState :=
  { placed := true, paused := false, holes := holes9
  , gridPos := Vec3.zero, gridQuat := Quat.identity
  , moleVisible := false, molePos := Vec3.zero, moleQuat := Quat.identity
  , moleAnim := none, moleState := .down, activeHoleIndex := -1
  , nextPopAt := 700, score := 0, streak := 0, upSince := 0, rng := [0, 0, 0, 0] }

def exPop : GameState :=
  { exPlaced with
      moleVisible := true
    , molePos := ⟨-0.38, -0.02, -0.38⟩
    , moleAnim := some ⟨.pop, 700, 180, -0.02, 0.16⟩
    , moleState := .up, activeHoleIndex := 0, upSince := 700, rng := [0, 0, 0] }

def exUp : GameState :=
  { exPop with molePos := ⟨-0.38, 0.16, -0.38⟩, moleAnim := none }

def exWhack : GameState :=
  { exUp with
      moleAnim := some ⟨.bonk, 901, 140, 0.16, -0.02⟩
    , moleState := .down, score := 1, streak := 1 }

def exRepop : GameState :=
  { exWhack with
      molePos := ⟨-0.38, -0.02, -0.38⟩
    , moleAnim := some ⟨.pop, 916, 180, -0.02, 0.16⟩
    , moleState := .up, upSince := 916, rng := [0, 0] }

def exUp2 : GameState :=
  { exRepop with molePos := ⟨-0.38, 0.16, -0.38⟩, moleAnim := none }

def exTimeout : GameState :=
  { exUp with moleAnim := some ⟨.hide, 1602, 160, 0.16, -0.02⟩, streak := 0 }

def exDown : GameState :=
  { exUp with
      moleVisible := false, molePos := ⟨-0.38, -0.02, -0.38⟩, moleAnim := none
    , moleState := .down, streak := 0, nextPopAt := 2462, rng := [0, 0] }

def exPausedUp : GameState := { exUp with paused := true }

/-- The slot local offset exactly as the spec words it:
`((c - (cols-1)/2) * spacing, (r - (rows-1)/2) * spacing)`. -/
def specLocalOffset (r c : ℕ) : Vec3 :=
  ⟨((c : ℚ) - ((GRID : ℚ) - 1) / 2) * SPACING, 0,
   ((r : ℚ) - ((GRID : ℚ) - 1) / 2) * SPACING⟩

theorem Vec3.add_def (a b : Vec3) : a + b = ⟨a.x + b.x, a.y + b.y, a.z + b.z⟩ := rfl

theorem easeOut_zero : easeOut 0 = 0 := by norm_num [easeOut]

theorem easeOut_one : easeOut 1 = 1 := by norm_num [easeOut]

theorem scheduleNextPop_score (now : ℚ) (s : GameState) :
    (scheduleNextPop now s).score = s.score := rfl

theorem popMole_score (now : ℚ) (s : GameState) : (popMole now s).score = s.score := rfl

theorem stepAnim_score (now : ℚ) (s : GameState) : (stepAnim now s).score = s.score := by
  unfold stepAnim
  split
  · rfl
  · dsimp only
    split_ifs
    · split <;> rfl
    · rfl
    · rfl

theorem timeoutCheck_score (now : ℚ) (s : GameState) :
    (timeoutCheck now s).score = s.score := by
  unfold timeoutCheck
  split_ifs <;> rfl

theorem updateMole_score (now : ℚ) (s : GameState) : (updateMole now s).score = s.score := by
  unfold updateMole
  rw [timeoutCheck_score, stepAnim_score]
  split_ifs <;> rfl

theorem advances_score (ts : List ℚ) (s : GameState) : (advances ts s).score = s.score := by
  induction ts generalizing s with
  | nil => rfl
  | cons t ts ih =>
    show (advances ts (updateMole t s)).score = s.score
    rw [ih, updateMole_score]

theorem stepAnim_streak (now : ℚ) (s : GameState) : (stepAnim now s).streak = s.streak := by
  unfold stepAnim
  split
  · rfl
  · dsimp only
    split_ifs
    · split <;> rfl
    · rfl
    · rfl

theorem timeoutCheck_streak_zero (now : ℚ) (s : GameState) (h : s.streak = 0) :
    (timeoutCheck now s).streak = 0 := by
  unfold timeoutCheck
  split_ifs <;> simp [h]

theorem updateMole_streak_zero (now : ℚ) (s : GameState) (h : s.streak = 0) :
    (updateMole now s).streak = 0 := by
  unfold updateMole
  apply timeoutCheck_streak_zero
  rw [stepAnim_streak]
  split_ifs <;> simp [h, popMole]

theorem advances_streak_zero (ts : List ℚ) (s : GameState) (h : s.streak = 0) :
    (advances ts s).streak = 0 := by
  induction ts generalizing s with
  | nil => exact h
  | cons t ts ih =>
    show (advances ts (updateMole t s)).streak = 0
    exact ih _ (updateMole_streak_zero _ _ h)

theorem derivedState_up_iff (s : GameState) :
    derivedState s = .Up ↔ s.moleState = .up ∧ s.moleAnim = none := by
  unfold derivedState
  rcases hm : s.moleState <;> rcases ha : s.moleAnim with _ | a <;>
    simp_all <;> split_ifs <;> simp_all

theorem WfRng.tail {l : List ℚ} (h : WfRng l) : WfRng l.tail := by
  intro u hu
  exact h u (List.mem_of_mem_tail hu)

theorem WfRng.headD_nonneg {l : List ℚ} (h : WfRng l) : 0 ≤ l.headD 0 := by
  cases l with
  | nil => simp
  | cons a l => exact (h a (by simp)).1

theorem WfRng.headD_lt_one {l : List ℚ} (h : WfRng l) : l.headD 0 < 1 := by
  cases l with
  | nil => simp
  | cons a l => exact (h a (by simp)).2

theorem Inv_popMole (now : ℚ) (s : GameState) (h : Inv s)
    (hp : s.placed = true) (hh : s.holes.length ≠ 0) : Inv (popMole now s) := by
  obtain ⟨hw, -⟩ := h
  have hu0 : 0 ≤ s.rng.headD 0 := hw.headD_nonneg
  have hu1 : s.rng.headD 0 < 1 := hw.headD_lt_one
  have hlen : 0 < (s.holes.length : ℚ) := by
    exact_mod_cast Nat.pos_of_ne_zero hh
  have hfl : ⌊s.rng.headD 0 * (s.holes.length : ℚ)⌋ < (s.holes.length : ℤ) := by
    rw [Int.floor_lt]
    push_cast
    exact mul_lt_of_lt_one_left hlen hu1
  refine ⟨hw.tail, fun _ => ⟨hp, ?_, ?_, ?_, ?_⟩⟩
  · simp [popMole]
  · simp only [popMole]
    omega
  · intro a ha hk
    simp only [popMole, Option.some.injEq] at ha
    rw [← ha]
  · intro _ hnone
    simp [popMole] at hnone

theorem Inv_stepAnim (now : ℚ) (s : GameState) (h : Inv s) : Inv (stepAnim now s) := by
  obtain ⟨hw, hup⟩ := h
  unfold stepAnim
  split
  · exact ⟨hw, hup⟩
  case h_2 a heq =>
    dsimp only
    split_ifs with hv ht
    · split
      · rename_i hk
        refine ⟨hw, fun hm => ?_⟩
        obtain ⟨hp, h1, h2, hkk, -⟩ := hup hm
        refine ⟨hp, h1, h2, by simp, fun _ _ => ?_⟩
        have htoY : a.toY = 0.16 := hkk a heq hk
        have hteq : min 1 ((now - a.t0) / a.dur) = (1 : ℚ) :=
          le_antisymm (min_le_left _ _) ht
        simp only [activeHole, hteq, easeOut_one, htoY]
        ring
      · refine ⟨hw.tail, fun hm => ?_⟩
        simp [scheduleNextPop] at hm
      · refine ⟨hw.tail, fun hm => ?_⟩
        simp [scheduleNextPop] at hm
    · refine ⟨hw, fun hm => ?_⟩
      obtain ⟨hp, h1, h2, hkk, -⟩ := hup hm
      exact ⟨hp, h1, h2, fun a2 ha2 => hkk a2 (by simpa using ha2), by simp [heq]⟩
    · exact ⟨hw, hup⟩

theorem Inv_timeoutCheck (now : ℚ) (s : GameState) (h : Inv s) : Inv (timeoutCheck now s) := by
  obtain ⟨hw, hup⟩ := h
  unfold timeoutCheck
  split_ifs with hc
  · refine ⟨hw, fun _ => ?_⟩
    obtain ⟨hp, h1, h2, -, -⟩ := hup hc.1
    refine ⟨hp, h1, h2, ?_, by simp⟩
    intro a ha hk
    simp only [Option.some.injEq] at ha
    rw [← ha] at hk
    simp at hk
  · exact ⟨hw, hup⟩

theorem Inv_updateMole (now : ℚ) (s : GameState) (h : Inv s) (hp : s.placed = true) :
    Inv (updateMole now s) := by
  unfold updateMole
  apply Inv_timeoutCheck
  apply Inv_stepAnim
  split_ifs with hc
  · exact Inv_popMole _ _ h hp hc.2.2
  · exact h

theorem Inv_whackMole (now : ℚ) (s : GameState) (h : Inv s) : Inv (whackMole now s) := by
  obtain ⟨hw, hup⟩ := h
  unfold whackMole
  split_ifs with hc
  · exact ⟨hw, by intro hm; simp at hm⟩
  · exact ⟨hw, hup⟩

theorem Inv_onPointerDown (pose : Vec3 × Quat) (b : Bool) (now : ℚ) (s : GameState)
    (h : Inv s) : Inv (onPointerDown pose b now s) := by
  obtain ⟨hw, hup⟩ := h
  unfold onPointerDown
  split_ifs with hpl hhit
  · refine ⟨hw.tail, fun hm => ?_⟩
    simp only [scheduleNextPop] at hm
    obtain ⟨hp, -⟩ := hup hm
    rw [hpl] at hp
    exact absurd hp (by simp)
  · exact Inv_whackMole _ _ ⟨hw, hup⟩
  · exact ⟨hw, hup⟩

theorem Inv_onXRFrame (now : ℚ) (s : GameState) (h : Inv s) : Inv (onXRFrame now s) := by
  unfold onXRFrame
  split_ifs with hc
  · exact Inv_updateMole _ _ h hc.2
  · exact h

theorem Inv_togglePause (s : GameState) (h : Inv s) : Inv (togglePause s) := h

theorem Inv_resetGame (s : GameState) (h : Inv s) : Inv (resetGame s) := by
  obtain ⟨hw, -⟩ := h
  exact ⟨hw, by intro hm; simp [resetGame] at hm⟩

theorem Inv_sessionStart (now : ℚ) (s : GameState) (h : Inv s) :
    Inv (sessionStart now s) := by
  obtain ⟨hw, hup⟩ := h
  refine ⟨hw.tail, fun hm => ?_⟩
  simp only [sessionStart, scheduleNextPop] at hm ⊢
  exact hup hm

theorem Inv_initState (rng : List ℚ) (hw : WfRng rng) : Inv (initState rng) :=
  ⟨hw, by intro hm; simp [initState] at hm⟩

theorem inv_of_reachable {s : GameState} (h : Reachable s) : Inv s := by
  induction h with
  | init rng hw => exact Inv_initState rng hw
  | frame now _ ih => exact Inv_onXRFrame now _ ih
  | tap pose b now _ ih => exact Inv_onPointerDown pose b now _ ih
  | pauseBtn _ ih => exact Inv_togglePause _ ih
  | resetBtn _ ih => exact Inv_resetGame _ ih
  | session now _ ih => exact Inv_sessionStart now _ ih

theorem stepAnim_none (now : ℚ) (s : GameState) (h : s.moleAnim = none) :
    stepAnim now s = s := by
  unfold stepAnim
  rw [h]

theorem stepAnim_invisible (now : ℚ) (s : GameState) (h : s.moleVisible = false) :
    stepAnim now s = s := by
  unfold stepAnim
  split
  · rfl
  · rw [if_neg (by simp [h])]

theorem timeoutCheck_of_anim (now : ℚ) (s : GameState) (a : AnimRec)
    (h : s.moleAnim = some a) : timeoutCheck now s = s := by
  unfold timeoutCheck
  rw [if_neg (by simp [h])]

theorem timeoutCheck_noop (now : ℚ) (s : GameState)
    (h : ¬(s.moleState = .up ∧ UP_DURATION < now - s.upSince ∧ s.moleAnim = none)) :
    timeoutCheck now s = s := by
  unfold timeoutCheck
  rw [if_neg h]

theorem timeoutCheck_of_down (now : ℚ) (s : GameState) (h : s.moleState = .down) :
    timeoutCheck now s = s := by
  apply timeoutCheck_noop
  simp [h]

theorem updateMole_nopop (now : ℚ) (s : GameState)
    (h : ¬(s.moleState = .down ∧ s.nextPopAt ≤ now ∧ s.holes.length ≠ 0)) :
    updateMole now s = timeoutCheck now (stepAnim now s) := by
  unfold updateMole
  rw [if_neg h]

theorem updateMole_pop (now : ℚ) (s : GameState)
    (h : s.moleState = .down ∧ s.nextPopAt ≤ now ∧ s.holes.length ≠ 0) :
    updateMole now s = timeoutCheck now (stepAnim now (popMole now s)) := by
  unfold updateMole
  rw [if_pos h]

theorem stepAnim_keep (now : ℚ) (s : GameState) (a : AnimRec)
    (ha : s.moleAnim = some a) (hv : s.moleVisible = true)
    (ht : ¬ 1 ≤ min 1 ((now - a.t0) / a.dur)) :
    stepAnim now s =
      { s with molePos :=
          ⟨s.molePos.x,
           (activeHole s).y +
             (a.fromY + (a.toY - a.fromY) * easeOut (min 1 ((now - a.t0) / a.dur))),
           s.molePos.z⟩ } := by
  unfold stepAnim
  rw [ha]
  dsimp only
  rw [if_pos hv, if_neg ht]

theorem stepAnim_keep_fix (now : ℚ) (s : GameState) (a : AnimRec)
    (ha : s.moleAnim = some a) (hv : s.moleVisible = true)
    (ht : ¬ 1 ≤ min 1 ((now - a.t0) / a.dur))
    (hpos : s.molePos.y =
      (activeHole s).y +
        (a.fromY + (a.toY - a.fromY) * easeOut (min 1 ((now - a.t0) / a.dur)))) :
    stepAnim now s = s := by
  rw [stepAnim_keep now s a ha hv ht, ← hpos]

theorem stepAnim_pop_done (now : ℚ) (s : GameState) (a : AnimRec)
    (ha : s.moleAnim = some a) (hv : s.moleVisible = true)
    (ht : 1 ≤ min 1 ((now - a.t0) / a.dur)) (hk : a.kind = .pop) :
    stepAnim now s =
      { s with molePos := ⟨s.molePos.x, (activeHole s).y + a.toY, s.molePos.z⟩
             , moleAnim := none } := by
  have hteq : min 1 ((now - a.t0) / a.dur) = (1 : ℚ) :=
    le_antisymm (min_le_left _ _) ht
  unfold stepAnim
  rw [ha]
  dsimp only
  rw [if_pos hv, if_pos ht, hk]
  dsimp only
  rw [hteq, easeOut_one]
  ring_nf

theorem stepAnim_retreat_done (now : ℚ) (s : GameState) (a : AnimRec)
    (ha : s.moleAnim = some a) (hv : s.moleVisible = true)
    (ht : 1 ≤ min 1 ((now - a.t0) / a.dur)) (hk : a.kind = .hide ∨ a.kind = .bonk) :
    stepAnim now s =
      scheduleNextPop now
        { s with molePos := ⟨s.molePos.x, (activeHole s).y + a.toY, s.molePos.z⟩
               , moleVisible := false
               , moleAnim := none
               , moleState := .down } := by
  have hteq : min 1 ((now - a.t0) / a.dur) = (1 : ℚ) :=
    le_antisymm (min_le_left _ _) ht
  unfold stepAnim
  rw [ha]
  dsimp only
  rw [if_pos hv, if_pos ht]
  rcases hk with hk | hk <;>
    (rw [hk]; dsimp only; rw [hteq, easeOut_one]; ring_nf)

theorem min_one_self_div (now d : ℚ) : min (1:ℚ) ((now - now) / d) = 0 := by
  rw [sub_self, zero_div]
  exact min_eq_right zero_le_one

/-- A state that is up with a freshly created hide animation (phase 0) and
whose mole already rests at the hide animation's start height is a fixed
point of `updateMole` at the creation time. -/
theorem updateMole_fix_upHide (now : ℚ) (r : GameState)
    (hm : r.moleState = .up)
    (ha : r.moleAnim = some ⟨.hide, now, 160, 0.16, -0.02⟩)
    (hpos : r.moleVisible = true → r.molePos.y = (activeHole r).y + 0.16) :
    updateMole now r = r := by
  rw [updateMole_nopop now r (by rw [hm]; simp)]
  have hstep : stepAnim now r = r := by
    by_cases hv : r.moleVisible = true
    · apply stepAnim_keep_fix now r _ ha hv
      · rw [min_one_self_div now 160]
        norm_num
      · rw [min_one_self_div now 160, easeOut_zero, hpos hv]
        ring
    · exact stepAnim_invisible now r (by simpa using hv)
  rw [hstep, timeoutCheck_of_anim now r _ ha]

/-- A down state with no animation whose scheduled pop lies in the future
is a fixed point of `updateMole`. -/
theorem updateMole_fix_downIdle (now : ℚ) (r : GameState)
    (hm : r.moleState = .down) (ha : r.moleAnim = none)
    (hnp : ¬ r.nextPopAt ≤ now) :
    updateMole now r = r := by
  rw [updateMole_nopop now r (fun hc => hnp hc.2.1), stepAnim_none now r ha,
    timeoutCheck_of_down now r hm]

/-- A state with no animation, not due to pop, and not up-and-late, is a
fixed point of `updateMole`. -/
theorem updateMole_fix_idle (now : ℚ) (r : GameState)
    (hP : ¬(r.moleState = .down ∧ r.nextPopAt ≤ now ∧ r.holes.length ≠ 0))
    (ha : r.moleAnim = none)
    (hT : ¬(r.moleState = .up ∧ UP_DURATION < now - r.upSince)) :
    updateMole now r = r := by
  rw [updateMole_nopop now r hP, stepAnim_none now r ha,
    timeoutCheck_noop now r (fun hc => hT ⟨hc.1, hc.2.1⟩)]

/-- A state whose running animation has not completed and whose mole
already sits at the interpolated height is a fixed point of `updateMole`. -/
theorem updateMole_fix_keep (now : ℚ) (r : GameState) (a : AnimRec)
    (hP : ¬(r.moleState = .down ∧ r.nextPopAt ≤ now ∧ r.holes.length ≠ 0))
    (ha : r.moleAnim = some a) (hv : r.moleVisible = true)
    (ht : ¬ 1 ≤ min 1 ((now - a.t0) / a.dur))
    (hpos : r.molePos.y =
      (activeHole r).y +
        (a.fromY + (a.toY - a.fromY) * easeOut (min 1 ((now - a.t0) / a.dur)))) :
    updateMole now r = r := by
  rw [updateMole_nopop now r hP, stepAnim_keep_fix now r a ha hv ht hpos,
    timeoutCheck_of_anim now r a ha]

/-- `advance(now)` is idempotent: running the per-frame update twice with
the same timestamp gives the same state as running it once. -/
theorem updateMole_idem (now : ℚ) (s : GameState) (h : Inv s) :
    updateMole now (updateMole now s) = updateMole now s := by
  obtain ⟨hw, hup⟩ := h
  by_cases hP : s.moleState = .down ∧ s.nextPopAt ≤ now ∧ s.holes.length ≠ 0
  · -- the pop block fires; the fresh pop animation is at phase t = 0
    have hpopA : (popMole now s).moleAnim = some ⟨.pop, now, 180, -0.02, 0.16⟩ := rfl
    have ht : ¬ (1:ℚ) ≤ min 1 ((now - now) / 180) := by
      rw [min_one_self_div now 180]
      norm_num
    have hpos : (popMole now s).molePos.y =
        (activeHole (popMole now s)).y +
          ((-0.02 : ℚ) + ((0.16 : ℚ) - (-0.02 : ℚ)) * easeOut (min 1 ((now - now) / 180))) := by
      rw [min_one_self_div now 180, easeOut_zero]
      simp only [popMole, activeHole, Int.toNat_natCast]
      ring
    have hstep : stepAnim now (popMole now s) = popMole now s :=
      stepAnim_keep_fix now _ _ hpopA rfl ht hpos
    have hfix : updateMole now s = popMole now s := by
      rw [updateMole_pop now s hP, hstep, timeoutCheck_of_anim now _ _ hpopA]
    rw [hfix, updateMole_nopop now _ (by simp [popMole]), hstep,
      timeoutCheck_of_anim now _ _ hpopA]
  · rcases ha : s.moleAnim with - | a
    · -- no animation running
      by_cases hT : s.moleState = .up ∧ UP_DURATION < now - s.upSince
      · -- the timeout fires; afterwards a fresh hide animation is running
        have hfix : updateMole now s =
            { s with moleAnim := some ⟨.hide, now, 160, 0.16, -0.02⟩, streak := 0 } := by
          rw [updateMole_nopop now s hP, stepAnim_none now s ha]
          unfold timeoutCheck
          rw [if_pos ⟨hT.1, hT.2, ha⟩]
        rw [hfix]
        refine updateMole_fix_upHide now _ ?_ ?_ ?_
        · exact hT.1
        · rfl
        · intro hv
          exact (hup hT.1).2.2.2.2 hv ha
      · -- nothing happens at all
        have hfix : updateMole now s = s := updateMole_fix_idle now s hP ha hT
        rw [hfix, hfix]
    · -- an animation is running
      by_cases hv : s.moleVisible = true
      · by_cases ht : (1:ℚ) ≤ min 1 ((now - a.t0) / a.dur)
        · -- the animation completes this frame
          rcases hkind : a.kind with - | - | -
          · -- pop completes: the mole ends idle at its hole's toY height
            have hstep := stepAnim_pop_done now s a ha hv ht hkind
            by_cases hT : s.moleState = .up ∧ UP_DURATION < now - s.upSince
            · -- and the timeout fires in the same call
              have htoY : a.toY = 0.16 := (hup hT.1).2.2.2.1 a ha hkind
              have hfix : updateMole now s =
                  { s with
                      molePos := ⟨s.molePos.x, (activeHole s).y + a.toY, s.molePos.z⟩
                    , moleAnim := some ⟨.hide, now, 160, 0.16, -0.02⟩
                    , streak := 0 } := by
                rw [updateMole_nopop now s hP, hstep]
                unfold timeoutCheck
                rw [if_pos ⟨hT.1, hT.2, rfl⟩]
              rw [hfix]
              refine updateMole_fix_upHide now _ ?_ ?_ ?_
              · exact hT.1
              · rfl
              · intro hv2
                show (activeHole s).y + a.toY = (activeHole s).y + 0.16
                rw [htoY]
            · have hfix : updateMole now s =
                  { s with
                      molePos := ⟨s.molePos.x, (activeHole s).y + a.toY, s.molePos.z⟩
                    , moleAnim := none } := by
                rw [updateMole_nopop now s hP, hstep]
                exact timeoutCheck_noop now _ (fun hc => hT ⟨hc.1, hc.2.1⟩)
              rw [hfix]
              refine updateMole_fix_idle now _ ?_ ?_ ?_
              · intro hc
                exact hP ⟨hc.1, hc.2.1, hc.2.2⟩
              · rfl
              · intro hc
                exact hT ⟨hc.1, hc.2⟩
          · -- hide completes: the mole goes down and the next pop is scheduled
            have hstep := stepAnim_retreat_done now s a ha hv ht (Or.inl hkind)
            have hfix : updateMole now s =
                scheduleNextPop now
                  { s with
                      molePos := ⟨s.molePos.x, (activeHole s).y + a.toY, s.molePos.z⟩
                    , moleVisible := false
                    , moleAnim := none
                    , moleState := .down } := by
              rw [updateMole_nopop now s hP, hstep, timeoutCheck_of_down now _ rfl]
            rw [hfix]
            refine updateMole_fix_downIdle now _ ?_ ?_ ?_
            · rfl
            · rfl
            · show ¬ now + rand POP_INTERVAL_MIN POP_INTERVAL_MAX (s.rng.headD 0) ≤ now
              have hu0 : 0 ≤ s.rng.headD 0 := hw.headD_nonneg
              rw [rand, POP_INTERVAL_MIN, POP_INTERVAL_MAX]
              intro hle
              nlinarith
          · -- bonk completes: same shape as hide
            have hstep := stepAnim_retreat_done now s a ha hv ht (Or.inr hkind)
            have hfix : updateMole now s =
                scheduleNextPop now
                  { s with
                      molePos := ⟨s.molePos.x, (activeHole s).y + a.toY, s.molePos.z⟩
                    , moleVisible := false
                    , moleAnim := none
                    , moleState := .down } := by
              rw [updateMole_nopop now s hP, hstep, timeoutCheck_of_down now _ rfl]
            rw [hfix]
            refine updateMole_fix_downIdle now _ ?_ ?_ ?_
            · rfl
            · rfl
            · show ¬ now + rand POP_INTERVAL_MIN POP_INTERVAL_MAX (s.rng.headD 0) ≤ now
              have hu0 : 0 ≤ s.rng.headD 0 := hw.headD_nonneg
              rw [rand, POP_INTERVAL_MIN, POP_INTERVAL_MAX]
              intro hle
              nlinarith
        · -- the animation continues: only the interpolated height is rewritten
          have hfix : updateMole now s =
              { s with molePos :=
                  ⟨s.molePos.x,
                   (activeHole s).y +
                     (a.fromY + (a.toY - a.fromY) * easeOut (min 1 ((now - a.t0) / a.dur))),
                   s.molePos.z⟩ } := by
            rw [updateMole_nopop now s hP, stepAnim_keep now s a ha hv ht]
            exact timeoutCheck_of_anim now _ a ha
          rw [hfix]
          refine updateMole_fix_keep now _ a ?_ ?_ ?_ ?_ ?_
          · intro hc
            exact hP ⟨hc.1, hc.2.1, hc.2.2⟩
          · exact ha
          · exact hv
          · exact ht
          · rfl
      · -- mole invisible: the animation block is skipped entirely
        have hvF : s.moleVisible = false := by simpa using hv
        have hT : ¬(s.moleState = .up ∧ UP_DURATION < now - s.upSince ∧ s.moleAnim = none) := by
          intro hc
          rw [ha] at hc
          simp at hc
        have hfix : updateMole now s = s := by
          rw [updateMole_nopop now s hP, stepAnim_invisible now s hvF,
            timeoutCheck_noop now s hT]
        rw [hfix, hfix]

theorem MoleState.up_iff_down : (MoleState.up = MoleState.down) ↔ False := by simp

theorem MoleState.down_iff_up : (MoleState.down = MoleState.up) ↔ False := by simp

theorem AnimKind.hide_iff_pop : (AnimKind.hide = AnimKind.pop) ↔ False := by simp

theorem AnimKind.bonk_iff_pop : (AnimKind.bonk = AnimKind.pop) ↔ False := by simp

theorem exPlaced_eq : onPointerDown idPose false 0 (initState rng0) = exPlaced := by
  norm_num [onPointerDown, initState, idPose, rng0, scheduleNextPop, rand, buildGrid,
    POP_INTERVAL_MIN, POP_INTERVAL_MAX, GRID, SPACING, List.range_succ, exPlaced, holes9,
    Quat.identity, Vec3.zero, applyQuaternion, Vec3.add_def]

theorem exPop_eq : onXRFrame 700 exPlaced = exPop := by
  norm_num [onXRFrame, updateMole, popMole, stepAnim, timeoutCheck, activeHole, easeOut,
    UP_DURATION, exPlaced, exPop, holes9]

theorem exUp_eq : onXRFrame 900 exPop = exUp := by
  norm_num [onXRFrame, updateMole, popMole, stepAnim, timeoutCheck, activeHole, easeOut,
    UP_DURATION, exPlaced, exPop, exUp, holes9, MoleState.up_iff_down]

theorem exWhack_eq : onPointerDown idPose true 901 exUp = exWhack := by
  norm_num [onPointerDown, whackMole, exPlaced, exPop, exUp, exWhack]

theorem exRepop_eq : onXRFrame 916 exWhack = exRepop := by
  norm_num [onXRFrame, updateMole, popMole, stepAnim, timeoutCheck, activeHole, easeOut,
    UP_DURATION, exPlaced, exPop, exUp, exWhack, exRepop, holes9,
    MoleState.up_iff_down, MoleState.down_iff_up]

theorem exUp2_eq : onXRFrame 1100 exRepop = exUp2 := by
  norm_num [onXRFrame, updateMole, popMole, stepAnim, timeoutCheck, activeHole, easeOut,
    UP_DURATION, exPlaced, exPop, exUp, exWhack, exRepop, exUp2, holes9,
    MoleState.up_iff_down, MoleState.down_iff_up]

theorem exTimeout_eq : onXRFrame 1602 exUp = exTimeout := by
  norm_num [onXRFrame, updateMole, popMole, stepAnim, timeoutCheck, activeHole, easeOut,
    UP_DURATION, exPlaced, exPop, exUp, exTimeout, holes9,
    MoleState.up_iff_down, MoleState.down_iff_up]

theorem exDown_eq : onXRFrame 1762 exTimeout = exDown := by
  norm_num [onXRFrame, updateMole, popMole, stepAnim, timeoutCheck, activeHole, easeOut,
    scheduleNextPop, rand, POP_INTERVAL_MIN, POP_INTERVAL_MAX,
    UP_DURATION, exPlaced, exPop, exUp, exTimeout, exDown, holes9,
    MoleState.up_iff_down, MoleState.down_iff_up]

theorem reachable_exPlaced : Reachable exPlaced := by
  rw [← exPlaced_eq]
  exact Reachable.tap idPose false 0 (Reachable.init rng0 (by simp [WfRng, rng0]))

theorem reachable_exPop : Reachable exPop := by
  rw [← exPop_eq]
  exact Reachable.frame 700 reachable_exPlaced

theorem reachable_exUp : Reachable exUp := by
  rw [← exUp_eq]
  exact Reachable.frame 900 reachable_exPop

theorem reachable_exWhack : Reachable exWhack := by
  rw [← exWhack_eq]
  exact Reachable.tap idPose true 901 reachable_exUp

theorem reachable_exRepop : Reachable exRepop := by
  rw [← exRepop_eq]
  exact Reachable.frame 916 reachable_exWhack

theorem reachable_exUp2 : Reachable exUp2 := by
  rw [← exUp2_eq]
  exact Reachable.frame 1100 reachable_exRepop

theorem reachable_exTimeout : Reachable exTimeout := by
  rw [← exTimeout_eq]
  exact Reachable.frame 1602 reachable_exUp

theorem reachable_exDown : Reachable exDown := by
  rw [← exDown_eq]
  exact Reachable.frame 1762 reachable_exTimeout

theorem popMole_paused (now : ℚ) (s : GameState) : (popMole now s).paused = s.paused := rfl

theorem stepAnim_paused (now : ℚ) (s : GameState) : (stepAnim now s).paused = s.paused := by
  unfold stepAnim
  split
  · rfl
  · dsimp only
    split_ifs
    · split <;> rfl
    · rfl
    · rfl

theorem timeoutCheck_paused (now : ℚ) (s : GameState) :
    (timeoutCheck now s).paused = s.paused := by
  unfold timeoutCheck
  split_ifs <;> rfl

theorem updateMole_paused (now : ℚ) (s : GameState) :
    (updateMole now s).paused = s.paused := by
  unfold updateMole
  rw [timeoutCheck_paused, stepAnim_paused]
  split_ifs <;> rfl

theorem stepAnim_placed (now : ℚ) (s : GameState) : (stepAnim now s).placed = s.placed := by
  unfold stepAnim
  split
  · rfl
  · dsimp only
    split_ifs
    · split <;> rfl
    · rfl
    · rfl

theorem timeoutCheck_placed (now : ℚ) (s : GameState) :
    (timeoutCheck now s).placed = s.placed := by
  unfold timeoutCheck
  split_ifs <;> rfl

theorem updateMole_placed (now : ℚ) (s : GameState) :
    (updateMole now s).placed = s.placed := by
  unfold updateMole
  rw [timeoutCheck_placed, stepAnim_placed]
  split_ifs <;> rfl

/-! ### The claims -/

/-- C1: for every placed state with the target Up, a tap that intersects
the target increments score and streak by exactly 1, immediately moves the
target out of Up (into the hit-path Retreating), and a second tap delivered
after the resolved hit — any tap, hitting or not — changes nothing at all,
so at most one hit is honored per pop cycle. -/
theorem C1_hit_scores_once (s : GameState) (pose pose2 : Vec3 × Quat) (b : Bool)
    (now now2 : ℚ) (hp : s.placed = true) (hup : derivedState s = .Up) :
    (onPointerDown pose true now s).score = s.score + 1 ∧
    (onPointerDown pose true now s).streak = s.streak + 1 ∧
    derivedState (onPointerDown pose true now s) = .Retreating ∧
    onPointerDown pose2 b now2 (onPointerDown pose true now s) =
      onPointerDown pose true now s := by
  obtain ⟨hm, ha⟩ := (derivedState_up_iff s).1 hup
  have htap : onPointerDown pose true now s = whackMole now s := by
    unfold onPointerDown
    rw [if_neg (by simp [hp]), if_pos ⟨rfl, hm⟩]
  have hwk : whackMole now s =
      { s with moleState := .down, moleAnim := some ⟨.bonk, now, 140, 0.16, -0.02⟩
             , score := s.score + 1, streak := s.streak + 1 } := by
    unfold whackMole
    rw [if_pos hm]
  rw [htap, hwk]
  refine ⟨rfl, rfl, rfl, ?_⟩
  unfold onPointerDown
  rw [if_neg (by simp [hp]), if_neg (by simp)]

theorem C1_hit_scores_once_witness :
    (onPointerDown idPose true 901 exUp).score = exUp.score + 1 ∧
    (onPointerDown idPose true 901 exUp).streak = exUp.streak + 1 ∧
    derivedState (onPointerDown idPose true 901 exUp) = .Retreating ∧
    onPointerDown idPose false 902 (onPointerDown idPose true 901 exUp) =
      onPointerDown idPose true 901 exUp :=
  C1_hit_scores_once exUp idPose idPose false 901 902 rfl rfl

/-- C2: when the target has been Up for more than UP_DURATION with no hit
resolved, the next frame zeroes the streak, leaves the score unchanged, and
moves the target to Retreating; the zeroing happens exactly once — all
later frames keep streak at 0 and never touch the score. -/
theorem C2_timeout_resets_streak_once (s : GameState) (now : ℚ) (ts : List ℚ)
    (hup : derivedState s = .Up) (hlate : UP_DURATION < now - s.upSince) :
    (updateMole now s).streak = 0 ∧
    (updateMole now s).score = s.score ∧
    derivedState (updateMole now s) = .Retreating ∧
    (advances ts (updateMole now s)).streak = 0 ∧
    (advances ts (updateMole now s)).score = s.score := by
  obtain ⟨hm, ha⟩ := (derivedState_up_iff s).1 hup
  have hupd : updateMole now s =
      { s with moleAnim := some ⟨.hide, now, 160, 0.16, -0.02⟩, streak := 0 } := by
    rw [updateMole_nopop now s (by simp [hm]), stepAnim_none now s ha]
    unfold timeoutCheck
    rw [if_pos ⟨hm, hlate, ha⟩]
  rw [hupd]
  refine ⟨rfl, rfl, ?_, ?_, ?_⟩
  · simp [derivedState, hm]
  · exact advances_streak_zero ts _ rfl
  · rw [advances_score]

theorem C2_timeout_resets_streak_once_witness :
    (updateMole 1602 exUp).streak = 0 ∧
    (updateMole 1602 exUp).score = exUp.score ∧
    derivedState (updateMole 1602 exUp) = .Retreating ∧
    (advances [1700, 1762, 2462] (updateMole 1602 exUp)).streak = 0 ∧
    (advances [1700, 1762, 2462] (updateMole 1602 exUp)).score = exUp.score :=
  C2_timeout_resets_streak_once exUp 1602 [1700, 1762, 2462] rfl
    (by norm_num [exUp, exPop, exPlaced, UP_DURATION])

/-- C3 (counterexample): in the reachable state `exPop` the target is
Rising — not Up — yet a tap that intersects the target is honored: score
and streak both increment and the target is knocked down.  This refutes
"taps while the state is not Up leave score, streak and state unchanged". -/
theorem C3_tap_while_rising_scores :
    Reachable exPop ∧ derivedState exPop = .Rising ∧
    (onPointerDown idPose true 750 exPop).score = exPop.score + 1 ∧
    (onPointerDown idPose true 750 exPop).streak = exPop.streak + 1 ∧
    (onPointerDown idPose true 750 exPop).moleState = .down := by
  refine ⟨reachable_exPop, rfl, ?_, ?_, ?_⟩ <;>
    norm_num [onPointerDown, whackMole, exPop, exPlaced]

/-- C3 (amended): taps are ignored exactly while the source state is
`'down'` — i.e. in Down and during the hit-path retreat a tap leaves the
whole state unchanged; but while the source state is `'up'` (which covers
Rising and the miss-path Retreating as well as Up) a tap intersecting the
target is honored as a hit. -/
theorem C3_tap_ignored_iff_mole_down (s : GameState) (pose : Vec3 × Quat) (b : Bool)
    (now : ℚ) (hp : s.placed = true) :
    (s.moleState = .down → onPointerDown pose b now s = s) ∧
    (s.moleState = .up →
      (onPointerDown pose true now s).score = s.score + 1 ∧
      (onPointerDown pose true now s).streak = s.streak + 1 ∧
      (onPointerDown pose true now s).moleState = .down) := by
  constructor
  · intro hd
    unfold onPointerDown
    rw [if_neg (by simp [hp]), if_neg (by simp [hd])]
  · intro hu
    unfold onPointerDown
    rw [if_neg (by simp [hp]), if_pos ⟨rfl, hu⟩]
    unfold whackMole
    rw [if_pos hu]
    exact ⟨rfl, rfl, rfl⟩

theorem C3_tap_ignored_iff_mole_down_witness :
    (exWhack.moleState = .down → onPointerDown idPose true 903 exWhack = exWhack) ∧
    (exWhack.moleState = .up →
      (onPointerDown idPose true 903 exWhack).score = exWhack.score + 1 ∧
      (onPointerDown idPose true 903 exWhack).streak = exWhack.streak + 1 ∧
      (onPointerDown idPose true 903 exWhack).moleState = .down) :=
  C3_tap_ignored_iff_mole_down exWhack idPose true 903 rfl

/-- C4 (counterexample): in the reachable state `exDown` the target is
Down, yet `activeHoleIndex = 0` is still a valid index into the 9-slot
set — the Retreating→Down transition never cleared it.  This refutes the
claimed equivalence `state = Up ⟺ activeSlotIndex valid`. -/
theorem C4_down_state_with_valid_index :
    Reachable exDown ∧ derivedState exDown = .Down ∧
    0 ≤ exDown.activeHoleIndex ∧ exDown.activeHoleIndex < (exDown.holes.length : ℤ) := by
  refine ⟨reachable_exDown, rfl, ?_, ?_⟩ <;>
    norm_num [exDown, exUp, exPop, exPlaced, holes9]

/-- C4 (amended): only one direction holds: in every reachable state, if
the target is Up then `activeHoleIndex` is a valid index into the slot set.
The converse fails because nothing ever clears `activeHoleIndex`: in
particular `resetGame` leaves it untouched and instead empties the slot
set. -/
theorem C4_up_implies_valid_index (s : GameState) (h : Reachable s) :
    (derivedState s = .Up →
      0 ≤ s.activeHoleIndex ∧ s.activeHoleIndex < (s.holes.length : ℤ)) ∧
    (resetGame s).activeHoleIndex = s.activeHoleIndex ∧
    (resetGame s).holes = [] := by
  obtain ⟨-, hup⟩ := inv_of_reachable h
  refine ⟨fun hd => ?_, rfl, rfl⟩
  obtain ⟨hm, -⟩ := (derivedState_up_iff s).1 hd
  obtain ⟨-, h1, h2, -, -⟩ := hup hm
  exact ⟨h1, h2⟩

theorem C4_up_implies_valid_index_witness :
    (derivedState (initState []) = .Up →
      0 ≤ (initState []).activeHoleIndex ∧
      (initState []).activeHoleIndex < ((initState []).holes.length : ℤ)) ∧
    (resetGame (initState [])).activeHoleIndex = (initState []).activeHoleIndex ∧
    (resetGame (initState [])).holes = [] :=
  C4_up_implies_valid_index (initState []) (Reachable.init [] (by simp [WfRng]))

/-- C10: `resetGame` always sets the paused flag to false, whatever the
state it is invoked from — resetting while paused silently resumes. -/
theorem C10_reset_clears_paused (s : GameState) : (resetGame s).paused = false := rfl

/-- C5: building the grid yields exactly 3×3 = 9 slots, in row-major order;
slot (r,c) is exactly the spec's local offset for cell (r,c) rotated and
translated by the anchor pose; and at the identity pose the nine (x,z)
world offsets are exactly the 0.38-spaced 3×3 grid.  `buildGrid` is a plain
function of the pose and the constants, hence deterministic. -/
theorem C5_buildGrid_layout (q : Quat) (p : Vec3) :
    (buildGrid q p).length = GRID * GRID ∧
    buildGrid q p =
      (List.range GRID).flatMap (fun r =>
        (List.range GRID).map fun c => applyQuaternion q (specLocalOffset r c) + p) ∧
    (buildGrid Quat.identity Vec3.zero).map (fun v => (v.x, v.z)) =
      [(-0.38, -0.38), (0, -0.38), (0.38, -0.38),
       (-0.38, 0), (0, 0), (0.38, 0),
       (-0.38, 0.38), (0, 0.38), (0.38, 0.38)] := by
  refine ⟨?_, ?_, ?_⟩
  · norm_num [buildGrid, GRID, List.range_succ]
  · norm_num [buildGrid, GRID, SPACING, specLocalOffset, List.range_succ]
  · norm_num [buildGrid, GRID, SPACING, List.range_succ, applyQuaternion,
      Quat.identity, Vec3.zero, Vec3.add_def]

/-- C6: from the state created by the pop trigger at `t0` (pop animation
with `phaseDuration = 180` ms, `upSince = t0`), a frame at any `t1`
strictly between `t0` and `t0 + 180` reports Rising, and a frame at any
`t2` with `t0 + 180 ≤ t2` (within the up window) reports Up: the
Rising→Up boundary is exactly `now - phaseStartTime ≥ phaseDuration`. -/
theorem C6_rising_becomes_up_at_duration (s : GameState) (t0 t1 t2 : ℚ)
    (hm : s.moleState = .up) (hv : s.moleVisible = true)
    (ha : s.moleAnim = some ⟨.pop, t0, 180, -0.02, 0.16⟩) (hu : s.upSince = t0)
    (_hlt : t0 < t1) (h2 : t1 < t0 + 180) (h3 : t0 + 180 ≤ t2) (h4 : t2 ≤ t0 + 900) :
    derivedState (updateMole t1 s) = .Rising ∧
    derivedState (updateMole t2 s) = .Up := by
  constructor
  · have hx : (t1 - t0) / (180:ℚ) < 1 := by
      rw [div_lt_one (by norm_num)]
      linarith
    have ht : ¬ (1:ℚ) ≤ min 1 ((t1 - t0) / 180) := by
      rw [min_eq_right hx.le]
      exact not_le.mpr hx
    rw [updateMole_nopop t1 s (by simp [hm]), stepAnim_keep t1 s _ ha hv ht]
    have hT : timeoutCheck t1
        { s with molePos :=
            ⟨s.molePos.x,
             (activeHole s).y +
               ((-0.02 : ℚ) +
                 ((0.16:ℚ) - (-0.02:ℚ)) * easeOut (min 1 ((t1 - t0) / 180))),
             s.molePos.z⟩ } =
        { s with molePos :=
            ⟨s.molePos.x,
             (activeHole s).y +
               ((-0.02 : ℚ) +
                 ((0.16:ℚ) - (-0.02:ℚ)) * easeOut (min 1 ((t1 - t0) / 180))),
             s.molePos.z⟩ } := timeoutCheck_of_anim t1 _ _ ha
    rw [hT]
    simp [derivedState, hm, ha]
  · have hx : (1:ℚ) ≤ (t2 - t0) / 180 := by
      rw [le_div_iff₀ (by norm_num)]
      linarith
    have ht : (1:ℚ) ≤ min 1 ((t2 - t0) / 180) := le_min le_rfl hx
    rw [updateMole_nopop t2 s (by simp [hm]), stepAnim_pop_done t2 s _ ha hv ht rfl]
    have hnl : ¬ UP_DURATION < t2 - s.upSince := by
      rw [hu, UP_DURATION]
      push_neg
      linarith
    have hT : timeoutCheck t2
        { s with molePos := ⟨s.molePos.x, (activeHole s).y + (0.16:ℚ), s.molePos.z⟩
               , moleAnim := none } =
        { s with molePos := ⟨s.molePos.x, (activeHole s).y + (0.16:ℚ), s.molePos.z⟩
               , moleAnim := none } :=
      timeoutCheck_noop t2 _ (fun hc => hnl hc.2.1)
    rw [hT]
    simp [derivedState, hm]

theorem C6_rising_becomes_up_at_duration_witness :
    derivedState (updateMole 790 exPop) = .Rising ∧
    derivedState (updateMole 880 exPop) = .Up :=
  C6_rising_becomes_up_at_duration exPop 700 790 880 rfl rfl rfl rfl
    (by norm_num) (by norm_num) (by norm_num) (by norm_num)

/-- C7: evidence for the bug on the hit path.  In the reachable state
`exWhack` — reached by whacking the Up target at `t = 901` — the target
has entered the `'down'` state but `nextPopAt` still holds the stale value
700 (in the past), because `scheduleNextPop` only runs when a hide/bonk
animation completes, which the pop trigger preempts.  Consequently the very
next frame, 15 ms after the hit, pops the target again (Rising with
`upSince = 916`) instead of waiting at least POP_INTERVAL_MIN = 700 ms
after the retreat completes. -/
theorem C7_hit_path_repops_immediately :
    Reachable exWhack ∧
    exWhack.moleState = .down ∧ derivedState exWhack = .Retreating ∧
    exWhack.nextPopAt = 700 ∧
    derivedState (onXRFrame 916 exWhack) = .Rising ∧
    (onXRFrame 916 exWhack).upSince = 916 ∧
    (onXRFrame 916 exWhack).moleState = .up := by
  refine ⟨reachable_exWhack, rfl, rfl, rfl, ?_, ?_, ?_⟩ <;>
    rw [exRepop_eq] <;> rfl

/-- C8 (counterexample): a reachable run in which the session is paused
during an Up phase after only 184 ms of unpaused up-time (`upSince = 916`,
last unpaused frame at `t = 1100`, `streak = 1`), stays frozen while
paused (the `t = 2990` frame is a no-op), and then times out on the very
first frame after resuming (`t = 3000`): `streak` drops to 0 and the
target retreats.  Had timers "resumed from where they left off" the
player would still have had ≥ 716 ms after resuming. -/
theorem C8_pause_then_resume_times_out_immediately :
    Reachable exUp2 ∧ derivedState exUp2 = .Up ∧ exUp2.streak = 1 ∧
    exUp2.upSince = 916 ∧
    (togglePause exUp2).paused = true ∧
    onXRFrame 2990 (togglePause exUp2) = togglePause exUp2 ∧
    (onXRFrame 3000 (togglePause (togglePause exUp2))).streak = 0 ∧
    derivedState (onXRFrame 3000 (togglePause (togglePause exUp2))) = .Retreating := by
  have hpp : togglePause (togglePause exUp2) = exUp2 := by
    simp [togglePause]
  refine ⟨reachable_exUp2, rfl, rfl, rfl, rfl, ?_, ?_, ?_⟩
  · unfold onXRFrame
    rw [if_neg (by simp [togglePause, exUp2, exRepop, exWhack, exUp, exPop, exPlaced])]
  · rw [hpp]
    norm_num [onXRFrame, updateMole, popMole, stepAnim, timeoutCheck, activeHole,
      easeOut, UP_DURATION, exUp2, exRepop, exWhack, exUp, exPop, exPlaced, holes9,
      MoleState.up_iff_down]
  · rw [hpp]
    norm_num [onXRFrame, updateMole, popMole, stepAnim, timeoutCheck, activeHole,
      easeOut, UP_DURATION, derivedState, exUp2, exRepop, exWhack, exUp, exPop,
      exPlaced, holes9, MoleState.up_iff_down, AnimKind.hide_iff_pop]

/-- C8 (amended): while paused, a frame is a complete no-op — no state
transitions occur.  But all timers are wall-clock timestamps that pausing
does not adjust: time spent paused counts toward UP_DURATION, so on the
first frame after resuming at a time `now` with
`now - upSince > UP_DURATION` the miss timeout fires immediately, however
little unpaused up-time had elapsed. -/
theorem C8_pause_freezes_frames_but_not_timers (s : GameState) (now : ℚ)
    (hpause : s.paused = true) (hplaced : s.placed = true)
    (hup : derivedState s = .Up) (hlate : UP_DURATION < now - s.upSince) :
    onXRFrame now s = s ∧
    (onXRFrame now (togglePause s)).streak = 0 ∧
    derivedState (onXRFrame now (togglePause s)) = .Retreating := by
  obtain ⟨hm, ha⟩ := (derivedState_up_iff s).1 hup
  have hframe : onXRFrame now (togglePause s) = updateMole now (togglePause s) := by
    unfold onXRFrame
    rw [if_pos ⟨by simp [togglePause, hpause], hplaced⟩]
  have hupd : updateMole now (togglePause s) =
      { togglePause s with
          moleAnim := some ⟨.hide, now, 160, 0.16, -0.02⟩, streak := 0 } := by
    rw [updateMole_nopop now _ (by simp [togglePause, hm]),
      stepAnim_none now _ (by simp [togglePause, ha])]
    unfold timeoutCheck
    rw [if_pos ⟨by simp [togglePause, hm], by simpa [togglePause] using hlate,
      by simp [togglePause, ha]⟩]
  refine ⟨?_, ?_, ?_⟩
  · unfold onXRFrame
    rw [if_neg (by simp [hpause])]
  · rw [hframe, hupd]
  · rw [hframe, hupd]
    simp [derivedState, togglePause, hm]

theorem C8_pause_freezes_frames_but_not_timers_witness :
    onXRFrame 5000 exPausedUp = exPausedUp ∧
    (onXRFrame 5000 (togglePause exPausedUp)).streak = 0 ∧
    derivedState (onXRFrame 5000 (togglePause exPausedUp)) = .Retreating :=
  C8_pause_freezes_frames_but_not_timers exPausedUp 5000 rfl rfl rfl
    (by norm_num [exPausedUp, exUp, exPop, exPlaced, UP_DURATION])

/-- C9: for every reachable state, running the per-frame update twice with
the same timestamp — both the raw `updateMole` and the full frame callback
`onXRFrame` — produces exactly the same state as running it once: no
transition fires twice, the streak reset is not re-applied, and pop
scheduling is not redone. -/
theorem C9_advance_idempotent (s : GameState) (now : ℚ) (h : Reachable s) :
    updateMole now (updateMole now s) = updateMole now s ∧
    onXRFrame now (onXRFrame now s) = onXRFrame now s := by
  have hInv := inv_of_reachable h
  have hum := updateMole_idem now s hInv
  refine ⟨hum, ?_⟩
  by_cases hc : s.paused = false ∧ s.placed = true
  · have h1 : onXRFrame now s = updateMole now s := by
      unfold onXRFrame
      rw [if_pos hc]
    have hc2 : (updateMole now s).paused = false ∧ (updateMole now s).placed = true := by
      rw [updateMole_paused, updateMole_placed]
      exact hc
    have h2 : onXRFrame now (updateMole now s) = updateMole now (updateMole now s) := by
      unfold onXRFrame
      rw [if_pos hc2]
    rw [h1, h2, hum]
  · have h1 : onXRFrame now s = s := by
      unfold onXRFrame
      rw [if_neg hc]
    rw [h1, h1]

theorem C9_advance_idempotent_witness :
    updateMole 0 (updateMole 0 (initState [])) = updateMole 0 (initState []) ∧
    onXRFrame 0 (onXRFrame 0 (initState [])) = onXRFrame 0 (initState []) :=
  C9_advance_idempotent (initState []) 0 (Reachable.init [] (by simp [WfRng]))

end WhackAMouse
